import Mathlib

set_option maxRecDepth 100000
set_option linter.unusedVariables false

namespace SIR

/-- Parameter and initial-condition record assembled by the constructor
`SIRModel.__init__` in sir_model.py (lines 22-37): `N = population`,
`I0 = initial_infected`, `S0 = population - initial_infected`, `R0 = 0`,
together with the two rates.  The Python real numbers are modelled as exact
rationals. -/
structure SIRModel where
  N : ℚ
  I0 : ℚ
  S0 : ℚ
  R0 : ℚ
  beta : ℚ
  gamma : ℚ
  deriving DecidableEq

/-- The assignments performed by `SIRModel.__init__` (sir_model.py lines 32-37).
The constructor of `SIRModelExcelMatch` in sir_model_fixed.py (lines 16-22)
performs exactly the same assignments, so both classes share this builder. -/
def mkModel (population initial_infected beta gamma : ℚ) : SIRModel :=
  { N := population
    I0 := initial_infected
    S0 := population - initial_infected
    R0 := 0
    beta := beta
    gamma := gamma }

/-- Error taxonomy named by the specification for model construction. -/
inductive InitError where
  | invalidParameter
  deriving DecidableEq

/-- Construction viewed as a fallible operation.  The body of
`SIRModel.__init__` contains no validation and no `raise`, so the
embedding always returns `Except.ok`. -/
def sirInit (population initial_infected beta gamma : ℚ) :
    Except InitError SIRModel :=
  Except.ok (mkModel population initial_infected beta gamma)

/-- One compartment state `(S, I, R)` during the simulation loop. -/
structure State where
  S : ℚ
  I : ℚ
  R : ℚ
  deriving DecidableEq

/-- Body of the loop in `discrete_simulation` (sir_model.py lines 87-95):
`new_infections = beta * S[t] * I[t] / N`, `new_recoveries = gamma * I[t]`,
then `S[t+1] = S[t] - new_infections`,
`I[t+1] = I[t] + new_infections - new_recoveries`,
`R[t+1] = R[t] + new_recoveries`. -/
def discreteStep (m : SIRModel) (st : State) : State :=
  let new_infections := m.beta * st.S * st.I / m.N
  let new_recoveries := m.gamma * st.I
  { S := st.S - new_infections
    I := st.I + new_infections - new_recoveries
    R := st.R + new_recoveries }

/-- The arrays `S`, `I`, `R` of `discrete_simulation` after `t` loop
iterations: entry 0 is `(S0, I0, R0)` (line 79) and entry `t+1` is the loop
body applied to entry `t`. -/
def stateAt (m : SIRModel) : ℕ → State
  | 0 => { S := m.S0, I := m.I0, R := m.R0 }
  | t + 1 => discreteStep m (stateAt m t)

/-- One row of the result DataFrame built at sir_model.py lines 102-108:
columns `Day`, `Susceptible`, `Infected`, `Recovered` and
`Total = S + I + R`. -/
structure Record where
  day : ℕ
  Susceptible : ℚ
  Infected : ℚ
  Recovered : ℚ
  Total : ℚ
  deriving DecidableEq

/-- The DataFrame returned by `SIRModel.discrete_simulation(days)`
(sir_model.py lines 69-110): rows indexed by `Day = 0 .. days`, row `t`
holding the arrays at index `t` and their sum. -/
def discrete_simulation (m : SIRModel) (days : ℕ) : List Record :=
  (List.range (days + 1)).map fun t =>
    { day := t
      Susceptible := (stateAt m t).S
      Infected := (stateAt m t).I
      Recovered := (stateAt m t).R
      Total := (stateAt m t).S + (stateAt m t).I + (stateAt m t).R }

/-- The pair returned by `SIRModel.get_peak_infection_day` (sir_model.py
lines 112-116): pandas `idxmax` selects the first row attaining the maximum
of the `Infected` column, and the function returns that row's `Day` together
with the column maximum.  `List.argmax` has exactly the first-maximum
semantics of `idxmax`; an empty frame (where pandas would raise) is mapped
to `none`. -/
def get_peak_infection_day (results : List Record) : Option (ℕ × ℚ) :=
  (results.argmax Record.Infected).map fun r => (r.day, r.Infected)

/-- Error taxonomy for the summary statistics. -/
inductive SummaryError where
  | divisionByZero
  deriving DecidableEq

/-- The basic reproduction number computed inside `get_epidemic_summary`
(sir_model.py line 127): `R0 = beta / gamma`, a Python float division that
raises `ZeroDivisionError` when `gamma == 0`. -/
def reproductionNumber (m : SIRModel) : Except SummaryError ℚ :=
  if m.gamma = 0 then Except.error SummaryError.divisionByZero
  else Except.ok (m.beta / m.gamma)

/-- One record advanced by the discrete step, used to state the series-shape
property: the day index grows by one and the compartments are stepped. -/
def stepRecord (m : SIRModel) (r : Record) : Record :=
  let st := discreteStep m { S := r.Susceptible, I := r.Infected, R := r.Recovered }
  { day := r.day + 1
    Susceptible := st.S
    Infected := st.I
    Recovered := st.R
    Total := st.S + st.I + st.R }

/-- The loop of `SIRModelExcelMatch.discrete_simulation_excel_style`
(sir_model_fixed.py lines 29-58) after `t` iterations: the three Python
lists `S`, `I`, `R`, which start as the singletons `[S0]`, `[I0]`, `[R0]`
and to which iteration `t` appends the values computed from the entries at
index `t` (`current_S = S[t]` and so on). -/
def excelLoop (m : SIRModel) : ℕ → List ℚ × List ℚ × List ℚ
  | 0 => ([m.S0], [m.I0], [m.R0])
  | t + 1 =>
      let acc := excelLoop m t
      let current_S := acc.1.getD t 0
      let current_I := acc.2.1.getD t 0
      let current_R := acc.2.2.getD t 0
      let new_infections := m.beta * current_S * current_I / m.N
      let new_recoveries := m.gamma * current_I
      (acc.1 ++ [current_S - new_infections],
       acc.2.1 ++ [current_I + new_infections - new_recoveries],
       acc.2.2 ++ [current_R + new_recoveries])

/-- The DataFrame returned by
`SIRModelExcelMatch.discrete_simulation_excel_style(days)`
(sir_model_fixed.py lines 68-77): `Day = range(len(S))` zipped with the
three lists and their elementwise sum. -/
def discrete_simulation_excel_style (m : SIRModel) (days : ℕ) : List Record :=
  let acc := excelLoop m days
  (List.range acc.1.length).map fun t =>
    { day := t
      Susceptible := acc.1.getD t 0
      Infected := acc.2.1.getD t 0
      Recovered := acc.2.2.getD t 0
      Total := acc.1.getD t 0 + acc.2.1.getD t 0 + acc.2.2.getD t 0 }

/-! ## Basic lemmas about the discrete step and the series -/

lemma stateAt_zero (m : SIRModel) :
    stateAt m 0 = { S := m.S0, I := m.I0, R := m.R0 } := rfl

lemma stateAt_succ (m : SIRModel) (t : ℕ) :
    stateAt m (t + 1) = discreteStep m (stateAt m t) := rfl

lemma stateAt_one (m : SIRModel) :
    stateAt m 1 = discreteStep m { S := m.S0, I := m.I0, R := m.R0 } := rfl

lemma discreteStep_sum (m : SIRModel) (st : State) :
    (discreteStep m st).S + (discreteStep m st).I + (discreteStep m st).R =
      st.S + st.I + st.R := by
  simp only [discreteStep]
  ring

lemma stateAt_sum (m : SIRModel) (t : ℕ) :
    (stateAt m t).S + (stateAt m t).I + (stateAt m t).R =
      m.S0 + m.I0 + m.R0 := by
  induction t with
  | zero => rfl
  | succ v ih => rw [stateAt, discreteStep_sum, ih]

lemma discreteStep_S_le (m : SIRModel) (st : State) (hN : 0 < m.N)
    (hb : 0 ≤ m.beta) (hS : 0 ≤ st.S) (hI : 0 ≤ st.I) :
    (discreteStep m st).S ≤ st.S := by
  have hni : 0 ≤ m.beta * st.S * st.I / m.N := by positivity
  simp only [discreteStep]
  linarith

lemma discreteStep_R_le (m : SIRModel) (st : State) (hg : 0 ≤ m.gamma)
    (hI : 0 ≤ st.I) :
    st.R ≤ (discreteStep m st).R := by
  have hnr : 0 ≤ m.gamma * st.I := mul_nonneg hg hI
  simp only [discreteStep]
  linarith

lemma discreteStep_of_I_eq_zero (m : SIRModel) (st : State) (h : st.I = 0) :
    discreteStep m st = st := by
  cases st with
  | mk S I R =>
      obtain rfl : I = 0 := h
      simp [discreteStep]

lemma stateAt_constant (m : SIRModel) (t : ℕ) (h : (stateAt m t).I = 0) :
    ∀ u, t ≤ u → stateAt m u = stateAt m t := by
  intro u hu
  induction u, hu using Nat.le_induction with
  | base => rfl
  | succ v hv ih =>
      rw [stateAt, ih, discreteStep_of_I_eq_zero m _ h]

/-! ## Claim theorems -/

/-- C1.  Conservation: for a model built with valid parameters
(`0 < N`, `0 ≤ I0 ≤ N`, `0 ≤ beta`, `0 ≤ gamma`) and any step count, every
record of `discrete_simulation` satisfies `S + I + R = N` (and its `Total`
column equals `N`); moreover one application of the discrete step preserves
the sum `S + I + R` exactly in rational arithmetic, for every model and
state. -/
theorem conservation_holds (p i b g : ℚ) (hp : 0 < p) (hi : 0 ≤ i)
    (hiN : i ≤ p) (hb : 0 ≤ b) (hg : 0 ≤ g) :
    (∀ days : ℕ, ∀ r ∈ discrete_simulation (mkModel p i b g) days,
        r.Susceptible + r.Infected + r.Recovered = p ∧ r.Total = p) ∧
    (∀ (m : SIRModel) (st : State),
        (discreteStep m st).S + (discreteStep m st).I + (discreteStep m st).R =
          st.S + st.I + st.R) := by
  constructor
  · intro days r hr
    simp only [discrete_simulation, List.mem_map, List.mem_range] at hr
    obtain ⟨t, ht, rfl⟩ := hr
    have h := stateAt_sum (mkModel p i b g) t
    have hS0 : (mkModel p i b g).S0 = p - i := rfl
    have hI0 : (mkModel p i b g).I0 = i := rfl
    have hR0 : (mkModel p i b g).R0 = 0 := rfl
    rw [hS0, hI0, hR0] at h
    have hp' : (stateAt (mkModel p i b g) t).S + (stateAt (mkModel p i b g) t).I +
        (stateAt (mkModel p i b g) t).R = p := by
      rw [h]; ring
    exact ⟨hp', hp'⟩
  · exact discreteStep_sum

/-- Witness for C1 at the concrete model `N = 1000`, `I0 = 1`, `beta = 1/2`,
`gamma = 1/10`. -/
theorem conservation_holds_witness :
    (((0 : ℚ) < 1000) ∧ ((0 : ℚ) ≤ 1) ∧ ((1 : ℚ) ≤ 1000) ∧
      ((0 : ℚ) ≤ 1/2) ∧ ((0 : ℚ) ≤ 1/10)) ∧
    ((∀ days : ℕ, ∀ r ∈ discrete_simulation (mkModel 1000 1 (1/2) (1/10)) days,
        r.Susceptible + r.Infected + r.Recovered = 1000 ∧ r.Total = 1000) ∧
    (∀ (m : SIRModel) (st : State),
        (discreteStep m st).S + (discreteStep m st).I + (discreteStep m st).R =
          st.S + st.I + st.R)) :=
  ⟨⟨by norm_num, by norm_num, by norm_num, by norm_num, by norm_num⟩,
    conservation_holds 1000 1 (1/2) (1/10) (by norm_num) (by norm_num)
      (by norm_num) (by norm_num) (by norm_num)⟩

/-- C2 counterexample.  At day 1 the series of the model
`N = 1000, I0 = 1, beta = 1/2, gamma = 1/10` holds
`S = 1997001/2000 = 998.5005`, `I = 2799/2000 = 1.3995`, `R = 1/10`,
not the claimed `S ≈ 999.4995`, `I ≈ 0.5005`: the gaps are `999/1000` and
`899/1000` respectively, far beyond any rounding tolerance. -/
theorem day_one_values_counterexample :
    (discrete_simulation (mkModel 1000 1 (1/2) (1/10)) 10)[1]? =
      some { day := 1, Susceptible := 1997001/2000, Infected := 2799/2000,
             Recovered := 1/10, Total := 1000 } ∧
    (9994995/10000 : ℚ) - 1997001/2000 = 999/1000 ∧
    (2799/2000 : ℚ) - 5005/10000 = 899/1000 := by
  refine ⟨?_, by norm_num, by norm_num⟩
  rw [discrete_simulation, List.getElem?_map, List.getElem?_range (by norm_num)]
  simp only [Option.map_some', Option.some.injEq, Record.mk.injEq]
  rw [stateAt_one]
  simp only [discreteStep, mkModel]
  norm_num

/-- C2 amended.  Day 1 of the same run satisfies the stated recurrence:
`newInfections = (1/2) * 999 * 1 / 1000 = 0.4995`,
`newRecoveries = (1/10) * 1 = 0.1`, so the day-1 record is
`S = 999 - 0.4995 = 998.5005`, `I = 1 + 0.4995 - 0.1 = 1.3995`,
`R = 0 + 0.1 = 0.1`. -/
theorem day_one_values_amended :
    (1/2 : ℚ) * 999 * 1 / 1000 = 4995/10000 ∧
    (1/10 : ℚ) * 1 = 1/10 ∧
    (discrete_simulation (mkModel 1000 1 (1/2) (1/10)) 10)[1]? =
      some { day := 1, Susceptible := 999 - 4995/10000,
             Infected := 1 + 4995/10000 - 1/10,
             Recovered := 0 + 1/10,
             Total := 1000 } := by
  refine ⟨by norm_num, by norm_num, ?_⟩
  rw [discrete_simulation, List.getElem?_map, List.getElem?_range (by norm_num)]
  simp only [Option.map_some', Option.some.injEq, Record.mk.injEq]
  rw [stateAt_one]
  simp only [discreteStep, mkModel]
  norm_num

/-- C3 counterexample.  `population = -1` satisfies `population ≤ 0`, where
the claim demands an `InvalidParameter` failure, yet `SIRModel.__init__`
performs no validation and construction succeeds. -/
theorem validation_claim_counterexample :
    ((-1 : ℚ) ≤ 0) ∧ sirInit (-1) 0 0 0 = Except.ok (mkModel (-1) 0 0 0) :=
  ⟨by norm_num, rfl⟩

/-- C3 amended.  Construction never fails: for all arguments (validated or
not) it returns the model with `N = population`, `I0 = initial_infected`,
`S0 = population - initial_infected`, `R0 = 0` and the two rates, with no
parameter check at all. -/
theorem construction_never_fails (p i b g : ℚ) :
    sirInit p i b g =
      Except.ok { N := p, I0 := i, S0 := p - i, R0 := 0, beta := b, gamma := g } :=
  rfl

/-- C4.  Per-step monotonicity: if `N > 0`, `beta ≥ 0` and the current
`S, I ≥ 0` then the step does not increase `S`; if `gamma ≥ 0` and the
current `I ≥ 0` then the step does not decrease `R`; consequently along the
series `S` is non-increasing and `R` non-decreasing at every index whose
state is non-negative.  (`N > 0` is part of the valid-parameter context of
the claim; it is genuinely needed for the `S` part.) -/
theorem step_monotone (m : SIRModel) (st : State) :
    (0 < m.N → 0 ≤ m.beta → 0 ≤ st.S → 0 ≤ st.I →
      (discreteStep m st).S ≤ st.S) ∧
    (0 ≤ m.gamma → 0 ≤ st.I → st.R ≤ (discreteStep m st).R) ∧
    (0 < m.N → 0 ≤ m.beta → 0 ≤ m.gamma → ∀ t : ℕ,
      0 ≤ (stateAt m t).S → 0 ≤ (stateAt m t).I →
      (stateAt m (t + 1)).S ≤ (stateAt m t).S ∧
        (stateAt m t).R ≤ (stateAt m (t + 1)).R) := by
  refine ⟨discreteStep_S_le m st, discreteStep_R_le m st, ?_⟩
  intro hN hb hg t hS hI
  exact ⟨by rw [stateAt]; exact discreteStep_S_le m _ hN hb hS hI,
    by rw [stateAt]; exact discreteStep_R_le m _ hg hI⟩

/-- C7.  The reproduction number is `beta / gamma` whenever `gamma ≠ 0`,
fails with division by zero when `gamma = 0` (construction itself permits
`gamma = 0`), and equals exactly `5` for `beta = 1/2`, `gamma = 1/10`. -/
theorem reproduction_number_spec (m : SIRModel) :
    (m.gamma ≠ 0 → reproductionNumber m = Except.ok (m.beta / m.gamma)) ∧
    (m.gamma = 0 →
      reproductionNumber m = Except.error SummaryError.divisionByZero) ∧
    (∀ b : ℚ, sirInit 1000 1 b 0 = Except.ok (mkModel 1000 1 b 0)) ∧
    reproductionNumber (mkModel 1000 1 (1/2) (1/10)) = Except.ok 5 := by
  refine ⟨fun h => ?_, fun h => ?_, fun b => rfl, ?_⟩
  · simp [reproductionNumber, h]
  · simp [reproductionNumber, h]
  · have hg : (mkModel 1000 1 (1/2) (1/10)).gamma = 1/10 := rfl
    rw [reproductionNumber, if_neg (by rw [hg]; norm_num)]
    norm_num [mkModel]

/-- C10.  Disease-free fixed point: a state with `I = 0` is left unchanged by
the discrete step, the series is constant from any index whose state has
`I = 0` on, and a model constructed with `initialInfected = 0` produces the
constant series `(N, 0, 0)`. -/
theorem disease_free_fixed_point (m : SIRModel) (st : State) (t u : ℕ)
    (p b g : ℚ) :
    (st.I = 0 → discreteStep m st = st) ∧
    ((stateAt m t).I = 0 → t ≤ u → stateAt m u = stateAt m t) ∧
    stateAt (mkModel p 0 b g) u = { S := p, I := 0, R := 0 } := by
  refine ⟨discreteStep_of_I_eq_zero m st, fun h hu => stateAt_constant m t h u hu, ?_⟩
  have h0 : stateAt (mkModel p 0 b g) 0 = { S := p, I := 0, R := 0 } := by
    simp [stateAt, mkModel]
  have := stateAt_constant (mkModel p 0 b g) 0 (by rw [h0]) u (Nat.zero_le u)
  rw [this, h0]

/-- C5.  Series shape: for every constructed model and every `days`, the
discrete simulation has exactly `days + 1` records; record 0 is the initial
condition `(S0 = N - I0, I0, R0 = 0)`; each record `t + 1` (for `t < days`)
is the discrete step of record `t`; the `Day` column equals the record
index; and `days = 0` gives exactly the one-record series of the initial
condition. -/
theorem series_shape (p i b g : ℚ) (days : ℕ) :
    (discrete_simulation (mkModel p i b g) days).length = days + 1 ∧
    (discrete_simulation (mkModel p i b g) days)[0]? =
      some { day := 0, Susceptible := p - i, Infected := i, Recovered := 0,
             Total := p } ∧
    (∀ t, t < days → ∀ r,
      (discrete_simulation (mkModel p i b g) days)[t]? = some r →
      (discrete_simulation (mkModel p i b g) days)[t + 1]? =
        some (stepRecord (mkModel p i b g) r)) ∧
    (∀ t, t ≤ days → ∀ r,
      (discrete_simulation (mkModel p i b g) days)[t]? = some r → r.day = t) ∧
    discrete_simulation (mkModel p i b g) 0 =
      [{ day := 0, Susceptible := p - i, Infected := i, Recovered := 0,
         Total := p }] := by
  have h1 : (stateAt (mkModel p i b g) 0).S = p - i := rfl
  have h2 : (stateAt (mkModel p i b g) 0).I = i := rfl
  have h3 : (stateAt (mkModel p i b g) 0).R = 0 := rfl
  have hrec : ({ day := 0
                 Susceptible := (stateAt (mkModel p i b g) 0).S
                 Infected := (stateAt (mkModel p i b g) 0).I
                 Recovered := (stateAt (mkModel p i b g) 0).R
                 Total := (stateAt (mkModel p i b g) 0).S +
                   (stateAt (mkModel p i b g) 0).I +
                   (stateAt (mkModel p i b g) 0).R } : Record) =
      { day := 0, Susceptible := p - i, Infected := i, Recovered := 0,
        Total := p } := by
    rw [h1, h2, h3]
    have ht : p - i + i + 0 = p := by ring
    rw [ht]
  refine ⟨?_, ?_, ?_, ?_, ?_⟩
  · simp [discrete_simulation]
  · rw [discrete_simulation, List.getElem?_map, List.getElem?_range (by omega),
      Option.map_some', hrec]
  · intro t ht r hr
    rw [discrete_simulation, List.getElem?_map, List.getElem?_range (by omega)] at hr
    simp only [Option.map_some', Option.some.injEq] at hr
    rw [discrete_simulation, List.getElem?_map, List.getElem?_range (by omega)]
    simp only [Option.map_some', Option.some.injEq]
    rw [← hr]
    rfl
  · intro t ht r hr
    rw [discrete_simulation, List.getElem?_map, List.getElem?_range (by omega)] at hr
    simp only [Option.map_some', Option.some.injEq] at hr
    rw [← hr]
  · rw [discrete_simulation]
    have hr1 : List.range (0 + 1) = [0] := rfl
    rw [hr1, List.map_cons, List.map_nil, hrec]

lemma getD_append_length (l : List ℚ) (x d : ℚ) : (l ++ [x]).getD l.length d = x := by
  rw [List.getD_eq_getElem?_getD, List.getElem?_append_right (le_refl _)]
  simp

lemma excelLoop_length (m : SIRModel) (t : ℕ) :
    (excelLoop m t).1.length = t + 1 ∧ (excelLoop m t).2.1.length = t + 1 ∧
      (excelLoop m t).2.2.length = t + 1 := by
  induction t with
  | zero => exact ⟨rfl, rfl, rfl⟩
  | succ v ih =>
      simp only [excelLoop, List.length_append, List.length_cons, List.length_nil]
      omega

lemma excelLoop_getD (m : SIRModel) (t : ℕ) : ∀ k, k ≤ t →
    (excelLoop m t).1.getD k 0 = (stateAt m k).S ∧
    (excelLoop m t).2.1.getD k 0 = (stateAt m k).I ∧
    (excelLoop m t).2.2.getD k 0 = (stateAt m k).R := by
  induction t with
  | zero =>
      intro k hk
      interval_cases k
      exact ⟨rfl, rfl, rfl⟩
  | succ v ih =>
      intro k hk
      obtain ⟨hS, hI, hR⟩ := excelLoop_length m v
      have hcur := ih v (le_refl v)
      rcases Nat.lt_or_ge k (v + 1) with hlt | hge
      · have hk' : k ≤ v := by omega
        obtain ⟨ihS, ihI, ihR⟩ := ih k hk'
        refine ⟨?_, ?_, ?_⟩
        · simp only [excelLoop]
          rw [List.getD_append _ _ _ _ (by omega), ihS]
        · simp only [excelLoop]
          rw [List.getD_append _ _ _ _ (by omega), ihI]
        · simp only [excelLoop]
          rw [List.getD_append _ _ _ _ (by omega), ihR]
      · have hk' : k = v + 1 := by omega
        subst hk'
        refine ⟨?_, ?_, ?_⟩
        · simp only [excelLoop]
          rw [stateAt_succ]
          rw [show v + 1 = (excelLoop m v).1.length from hS.symm, getD_append_length]
          rw [hcur.1, hcur.2.1]
          rfl
        · simp only [excelLoop]
          rw [stateAt_succ]
          rw [show v + 1 = (excelLoop m v).2.1.length from hI.symm, getD_append_length]
          rw [hcur.1, hcur.2.1]
          rfl
        · simp only [excelLoop]
          rw [stateAt_succ]
          rw [show v + 1 = (excelLoop m v).2.2.length from hR.symm, getD_append_length]
          rw [hcur.2.1, hcur.2.2]
          rfl

/-- C9.  Variant equivalence: for the same construction parameters (the two
constructors perform identical assignments, captured by the shared
`mkModel`) and the same number of days, the Excel-style simulation of
`SIRModelExcelMatch` returns exactly the same list of
`(Day, S, I, R, Total)` records as `SIRModel.discrete_simulation`. -/
theorem variants_equivalent (population initial_infected beta gamma : ℚ)
    (days : ℕ) :
    discrete_simulation_excel_style (mkModel population initial_infected beta gamma)
        days =
      discrete_simulation (mkModel population initial_infected beta gamma) days := by
  set m := mkModel population initial_infected beta gamma
  obtain ⟨hS, hI, hR⟩ := excelLoop_length m days
  rw [discrete_simulation_excel_style, discrete_simulation]
  simp only [hS]
  apply List.map_eq_map_iff.mpr
  intro t ht
  rw [List.mem_range] at ht
  obtain ⟨eS, eI, eR⟩ := excelLoop_getD m days t (by omega)
  rw [eS, eI, eR]

lemma argmax_infected_spec (rs : List Record) (hne : rs ≠ []) :
    ∃ k, ∃ hk : k < rs.length,
      rs.argmax Record.Infected = some (rs.get ⟨k, hk⟩) ∧
      (∀ j, ∀ hj : j < rs.length,
        (rs.get ⟨j, hj⟩).Infected ≤ (rs.get ⟨k, hk⟩).Infected) ∧
      (∀ j, ∀ hj : j < k,
        (rs.get ⟨j, Nat.lt_trans hj hk⟩).Infected < (rs.get ⟨k, hk⟩).Infected) := by
  induction rs using List.reverseRecOn with
  | nil => cases hne rfl
  | append_singleton l a ih =>
      rcases eq_or_ne l [] with rfl | hl
      · refine ⟨0, by simp, ?_, ?_, ?_⟩
        · simp [List.argmax_singleton]
        · intro j hj
          have hj0 : j = 0 := by simp at hj; omega
          subst hj0
          exact le_refl _
        · intro j hj
          omega
      · obtain ⟨k, hk, harg, hmax, hfirst⟩ := ih hl
        have hlen : (l ++ [a]).length = l.length + 1 := by simp
        have hgk : ∀ hk2 : k < (l ++ [a]).length,
            (l ++ [a]).get ⟨k, hk2⟩ = l.get ⟨k, hk⟩ := by
          intro hk2
          simp only [List.get_eq_getElem]
          exact List.getElem_append_left hk
        have hga : ∀ ha2 : l.length < (l ++ [a]).length,
            (l ++ [a]).get ⟨l.length, ha2⟩ = a := by
          intro ha2
          simp only [List.get_eq_getElem]
          simp
        have hcat : (l ++ [a]).argmax Record.Infected =
            if (l.get ⟨k, hk⟩).Infected < a.Infected then some a
            else some (l.get ⟨k, hk⟩) := by
          rw [List.argmax_concat, harg]
        by_cases hca : (l.get ⟨k, hk⟩).Infected < a.Infected
        · refine ⟨l.length, by omega, ?_, ?_, ?_⟩
          · rw [hcat, if_pos hca, hga]
          · intro j hj
            rcases Nat.lt_or_ge j l.length with hjl | hjl
            · have hje : (l ++ [a]).get ⟨j, hj⟩ = l.get ⟨j, hjl⟩ := by
                simp only [List.get_eq_getElem]
                exact List.getElem_append_left hjl
              rw [hje, hga]
              exact le_of_lt (lt_of_le_of_lt (hmax j hjl) hca)
            · have hje : j = l.length := by omega
              subst hje
              rw [hga]
          · intro j hj
            have hje : (l ++ [a]).get ⟨j, Nat.lt_trans hj (by omega)⟩ =
                l.get ⟨j, hj⟩ := by
              simp only [List.get_eq_getElem]
              exact List.getElem_append_left hj
            rw [hje, hga]
            exact lt_of_le_of_lt (hmax j hj) hca
        · refine ⟨k, by omega, ?_, ?_, ?_⟩
          · rw [hcat, if_neg hca, hgk]
          · intro j hj
            rcases Nat.lt_or_ge j l.length with hjl | hjl
            · have hje : (l ++ [a]).get ⟨j, hj⟩ = l.get ⟨j, hjl⟩ := by
                simp only [List.get_eq_getElem]
                exact List.getElem_append_left hjl
              rw [hje, hgk]
              exact hmax j hjl
            · have hje : j = l.length := by omega
              subst hje
              rw [hga, hgk]
              exact le_of_not_lt hca
          · intro j hj
            have hje : (l ++ [a]).get ⟨j, Nat.lt_trans hj (by omega)⟩ =
                l.get ⟨j, Nat.lt_trans hj hk⟩ := by
              simp only [List.get_eq_getElem]
              exact List.getElem_append_left (Nat.lt_trans hj hk)
            rw [hje, hgk]
            exact hfirst j hj

/-- C6.  `get_peak_infection_day` on a non-empty series returns the `Day`
and `Infected` values of a record attaining the maximum of the `Infected`
column, and that record is the first such record in series order (every
earlier record has strictly smaller `Infected`); since the series lists
days in ascending order, this is the first maximum in ascending day
order. -/
theorem peak_first_max (rs : List Record) (hne : rs ≠ []) :
    ∃ k, ∃ hk : k < rs.length,
      get_peak_infection_day rs =
        some ((rs.get ⟨k, hk⟩).day, (rs.get ⟨k, hk⟩).Infected) ∧
      (∀ j, ∀ hj : j < rs.length,
        (rs.get ⟨j, hj⟩).Infected ≤ (rs.get ⟨k, hk⟩).Infected) ∧
      (∀ j, ∀ hj : j < k,
        (rs.get ⟨j, Nat.lt_trans hj hk⟩).Infected < (rs.get ⟨k, hk⟩).Infected) := by
  obtain ⟨k, hk, harg, hmax, hfirst⟩ := argmax_infected_spec rs hne
  exact ⟨k, hk, by rw [get_peak_infection_day, harg, Option.map_some'], hmax, hfirst⟩

/-- Witness for C6: a concrete two-record series whose maximum is attained
at the second record. -/
theorem peak_first_max_witness :
    (([{ day := 0, Susceptible := 9, Infected := 1, Recovered := 0, Total := 10 },
       { day := 1, Susceptible := 8, Infected := 2, Recovered := 0, Total := 10 }] :
        List Record) ≠ []) ∧
    (∃ k, ∃ hk : k <
        ([{ day := 0, Susceptible := 9, Infected := 1, Recovered := 0, Total := 10 },
          { day := 1, Susceptible := 8, Infected := 2, Recovered := 0, Total := 10 }] :
            List Record).length,
      get_peak_infection_day
          [{ day := 0, Susceptible := 9, Infected := 1, Recovered := 0, Total := 10 },
           { day := 1, Susceptible := 8, Infected := 2, Recovered := 0, Total := 10 }] =
        some ((([{ day := 0, Susceptible := 9, Infected := 1, Recovered := 0, Total := 10 },
                  { day := 1, Susceptible := 8, Infected := 2, Recovered := 0, Total := 10 }] :
                    List Record).get ⟨k, hk⟩).day,
              (([{ day := 0, Susceptible := 9, Infected := 1, Recovered := 0, Total := 10 },
                 { day := 1, Susceptible := 8, Infected := 2, Recovered := 0, Total := 10 }] :
                   List Record).get ⟨k, hk⟩).Infected) ∧
      (∀ j, ∀ hj : j <
          ([{ day := 0, Susceptible := 9, Infected := 1, Recovered := 0, Total := 10 },
            { day := 1, Susceptible := 8, Infected := 2, Recovered := 0, Total := 10 }] :
              List Record).length,
        (([{ day := 0, Susceptible := 9, Infected := 1, Recovered := 0, Total := 10 },
           { day := 1, Susceptible := 8, Infected := 2, Recovered := 0, Total := 10 }] :
             List Record).get ⟨j, hj⟩).Infected ≤
        (([{ day := 0, Susceptible := 9, Infected := 1, Recovered := 0, Total := 10 },
           { day := 1, Susceptible := 8, Infected := 2, Recovered := 0, Total := 10 }] :
             List Record).get ⟨k, hk⟩).Infected) ∧
      (∀ j, ∀ hj : j < k,
        (([{ day := 0, Susceptible := 9, Infected := 1, Recovered := 0, Total := 10 },
           { day := 1, Susceptible := 8, Infected := 2, Recovered := 0, Total := 10 }] :
             List Record).get ⟨j, Nat.lt_trans hj hk⟩).Infected <
        (([{ day := 0, Susceptible := 9, Infected := 1, Recovered := 0, Total := 10 },
           { day := 1, Susceptible := 8, Infected := 2, Recovered := 0, Total := 10 }] :
             List Record).get ⟨k, hk⟩).Infected)) :=
  ⟨by simp,
    peak_first_max
      [{ day := 0, Susceptible := 9, Infected := 1, Recovered := 0, Total := 10 },
       { day := 1, Susceptible := 8, Infected := 2, Recovered := 0, Total := 10 }]
      (by simp)⟩

/-! ## Certified interval enclosure of the 75-day benchmark run

The peak-detection property is about the concrete run
`SIRModel(population=1000, initial_infected=1, beta=0.5, gamma=0.1)` over 75
days.  The exact rational trajectory cannot be evaluated directly (its
denominators square at every step), so the run is enclosed in fixed-point
integer intervals: an integer `z` stands for the rational `z / Dscale`, the
lower ends are rounded down and the upper ends rounded up with integer floor
and ceiling division.  `istep` is the interval extension of the discrete
step for these parameters (`new_infections = S*I/2000`,
`new_recoveries = I/10`), monotone in the state as long as the lower ends
are non-negative. -/

def exampleModel : SIRModel := mkModel 1000 1 (1/2) (1/10)

def Dscale : ℤ := 2 ^ 128

/-- Integer ceiling division (for a positive divisor). -/
def cdivZ (a d : ℤ) : ℤ := -((-a) / d)

/-- Scaled interval bounds on one compartment state of the benchmark run. -/
structure IBox where
  Slo : ℤ
  Shi : ℤ
  Ilo : ℤ
  Ihi : ℤ
  deriving DecidableEq

/-- Outward-rounded interval version of `discreteStep exampleModel`:
lower bounds are floored, upper bounds are ceiled. -/
def istep (b : IBox) : IBox :=
  { Slo := b.Slo - cdivZ (b.Shi * b.Ihi) (2000 * Dscale)
    Shi := b.Shi - b.Slo * b.Ilo / (2000 * Dscale)
    Ilo := b.Ilo + b.Slo * b.Ilo / (2000 * Dscale) - cdivZ b.Ihi 10
    Ihi := b.Ihi + cdivZ (b.Shi * b.Ihi) (2000 * Dscale) - b.Ilo / 10 }

/-- The interval enclosure after `t` steps, starting from the exact initial
state `(999, 1, 0)` scaled by `Dscale`. -/
def ibox : ℕ → IBox
  | 0 => { Slo := 999 * Dscale, Shi := 999 * Dscale, Ilo := Dscale, Ihi := Dscale }
  | t + 1 => istep (ibox t)

/-- The enclosure `ibox t` really brackets the exact state after `t` steps. -/
def SoundAt (t : ℕ) : Prop :=
  ((ibox t).Slo : ℚ) ≤ Dscale * (stateAt exampleModel t).S ∧
  (Dscale : ℚ) * (stateAt exampleModel t).S ≤ ((ibox t).Shi : ℚ) ∧
  ((ibox t).Ilo : ℚ) ≤ Dscale * (stateAt exampleModel t).I ∧
  (Dscale : ℚ) * (stateAt exampleModel t).I ≤ ((ibox t).Ihi : ℚ)

lemma ediv_cast_le (a d : ℤ) (hd : 0 < d) :
    ((a / d : ℤ) : ℚ) ≤ (a : ℚ) / (d : ℚ) := by
  rw [le_div_iff₀ (by exact_mod_cast hd)]
  exact_mod_cast Int.ediv_mul_le a (ne_of_gt hd)

lemma le_cdivZ_cast (a d : ℤ) (hd : 0 < d) :
    (a : ℚ) / (d : ℚ) ≤ ((cdivZ a d : ℤ) : ℚ) := by
  have h := ediv_cast_le (-a) d hd
  rw [cdivZ]
  push_cast at h ⊢
  have hneg : (-a : ℚ) / d = -((a : ℚ) / d) := by ring
  rw [hneg] at h
  linarith

lemma Dscale_pos : (0 : ℤ) < Dscale := by norm_num [Dscale]

lemma DscaleQ_pos : (0 : ℚ) < (Dscale : ℚ) := by exact_mod_cast Dscale_pos

lemma twoThousandD_pos : (0 : ℤ) < 2000 * Dscale := by
  have := Dscale_pos
  positivity

lemma exampleStep (S I R : ℚ) :
    discreteStep exampleModel { S := S, I := I, R := R } =
      { S := S - S * I / 2000, I := I + S * I / 2000 - I / 10, R := R + I / 10 } := by
  have hb : exampleModel.beta = 1/2 := rfl
  have hg : exampleModel.gamma = 1/10 := rfl
  have hN : exampleModel.N = 1000 := rfl
  simp only [discreteStep, hb, hg, hN, State.mk.injEq]
  refine ⟨by ring, by ring, by ring⟩

lemma istep_sound (b : IBox) (S I : ℚ)
    (hSl0 : 0 ≤ b.Slo) (hIl0 : 0 ≤ b.Ilo)
    (hSl : (b.Slo : ℚ) ≤ Dscale * S) (hSh : (Dscale : ℚ) * S ≤ (b.Shi : ℚ))
    (hIl : (b.Ilo : ℚ) ≤ Dscale * I) (hIh : (Dscale : ℚ) * I ≤ (b.Ihi : ℚ)) :
    ((istep b).Slo : ℚ) ≤ Dscale * (S - S * I / 2000) ∧
    (Dscale : ℚ) * (S - S * I / 2000) ≤ ((istep b).Shi : ℚ) ∧
    ((istep b).Ilo : ℚ) ≤ Dscale * (I + S * I / 2000 - I / 10) ∧
    (Dscale : ℚ) * (I + S * I / 2000 - I / 10) ≤ ((istep b).Ihi : ℚ) := by
  have hDQ : (0 : ℚ) < (Dscale : ℚ) := DscaleQ_pos
  have hDne : (Dscale : ℚ) ≠ 0 := ne_of_gt hDQ
  have h2000D : (0 : ℤ) < 2000 * Dscale := twoThousandD_pos
  have h2000DQ : (0 : ℚ) < ((2000 * Dscale : ℤ) : ℚ) := by exact_mod_cast h2000D
  have hDS0 : 0 ≤ (Dscale : ℚ) * S := le_trans (by exact_mod_cast hSl0) hSl
  have hDI0 : 0 ≤ (Dscale : ℚ) * I := le_trans (by exact_mod_cast hIl0) hIl
  have hShi0 : (0 : ℚ) ≤ (b.Shi : ℚ) := le_trans hDS0 hSh
  have hprodLe : ((Dscale : ℚ) * S) * ((Dscale : ℚ) * I) ≤ (b.Shi : ℚ) * (b.Ihi : ℚ) :=
    mul_le_mul hSh hIh hDI0 hShi0
  have hprodGe : (b.Slo : ℚ) * (b.Ilo : ℚ) ≤ ((Dscale : ℚ) * S) * ((Dscale : ℚ) * I) :=
    mul_le_mul hSl hIl (by exact_mod_cast hIl0) hDS0
  have hniEq : ((Dscale : ℚ) * S) * ((Dscale : ℚ) * I) / ((2000 * Dscale : ℤ) : ℚ) =
      (Dscale : ℚ) * (S * I / 2000) := by
    push_cast
    field_simp
    ring
  have f1 : ((b.Slo * b.Ilo / (2000 * Dscale) : ℤ) : ℚ) ≤ (Dscale : ℚ) * (S * I / 2000) := by
    have c1 := ediv_cast_le (b.Slo * b.Ilo) (2000 * Dscale) h2000D
    have c2 : ((b.Slo * b.Ilo : ℤ) : ℚ) / ((2000 * Dscale : ℤ) : ℚ) ≤
        ((Dscale : ℚ) * S) * ((Dscale : ℚ) * I) / ((2000 * Dscale : ℤ) : ℚ) := by
      apply div_le_div_of_nonneg_right ?_ (le_of_lt h2000DQ)
      push_cast
      exact_mod_cast hprodGe
    rw [hniEq] at c2
    exact le_trans c1 c2
  have f2 : (Dscale : ℚ) * (S * I / 2000) ≤
      ((cdivZ (b.Shi * b.Ihi) (2000 * Dscale) : ℤ) : ℚ) := by
    have c1 := le_cdivZ_cast (b.Shi * b.Ihi) (2000 * Dscale) h2000D
    have c2 : ((Dscale : ℚ) * S) * ((Dscale : ℚ) * I) / ((2000 * Dscale : ℤ) : ℚ) ≤
        ((b.Shi * b.Ihi : ℤ) : ℚ) / ((2000 * Dscale : ℤ) : ℚ) := by
      apply div_le_div_of_nonneg_right ?_ (le_of_lt h2000DQ)
      push_cast
      exact_mod_cast hprodLe
    rw [hniEq] at c2
    exact le_trans c2 c1
  have hten : (0 : ℤ) < 10 := by norm_num
  have f3 : ((b.Ilo / 10 : ℤ) : ℚ) ≤ (Dscale : ℚ) * (I / 10) := by
    have c1 := ediv_cast_le b.Ilo 10 hten
    have c2 : (b.Ilo : ℚ) / ((10 : ℤ) : ℚ) ≤ ((Dscale : ℚ) * I) / ((10 : ℤ) : ℚ) := by
      apply div_le_div_of_nonneg_right hIl (by norm_num)
    have c3 : ((Dscale : ℚ) * I) / ((10 : ℤ) : ℚ) = (Dscale : ℚ) * (I / 10) := by
      push_cast
      ring
    rw [c3] at c2
    exact le_trans c1 c2
  have f4 : (Dscale : ℚ) * (I / 10) ≤ ((cdivZ b.Ihi 10 : ℤ) : ℚ) := by
    have c1 := le_cdivZ_cast b.Ihi 10 hten
    have c2 : ((Dscale : ℚ) * I) / ((10 : ℤ) : ℚ) ≤ (b.Ihi : ℚ) / ((10 : ℤ) : ℚ) := by
      apply div_le_div_of_nonneg_right hIh (by norm_num)
    have c3 : ((Dscale : ℚ) * I) / ((10 : ℤ) : ℚ) = (Dscale : ℚ) * (I / 10) := by
      push_cast
      ring
    rw [c3] at c2
    exact le_trans c2 c1
  have e1 : (Dscale : ℚ) * (S - S * I / 2000) =
      (Dscale : ℚ) * S - (Dscale : ℚ) * (S * I / 2000) := by ring
  have e2 : (Dscale : ℚ) * (I + S * I / 2000 - I / 10) =
      (Dscale : ℚ) * I + (Dscale : ℚ) * (S * I / 2000) - (Dscale : ℚ) * (I / 10) := by
    ring
  refine ⟨?_, ?_, ?_, ?_⟩
  · have hfield : ((istep b).Slo : ℚ) =
        (b.Slo : ℚ) - ((cdivZ (b.Shi * b.Ihi) (2000 * Dscale) : ℤ) : ℚ) := by
      simp only [istep]
      push_cast
      ring
    rw [hfield, e1]
    linarith
  · have hfield : ((istep b).Shi : ℚ) =
        (b.Shi : ℚ) - ((b.Slo * b.Ilo / (2000 * Dscale) : ℤ) : ℚ) := by
      simp only [istep]
      push_cast
      ring
    rw [hfield, e1]
    linarith
  · have hfield : ((istep b).Ilo : ℚ) =
        (b.Ilo : ℚ) + ((b.Slo * b.Ilo / (2000 * Dscale) : ℤ) : ℚ) -
          ((cdivZ b.Ihi 10 : ℤ) : ℚ) := by
      simp only [istep]
      push_cast
      ring
    rw [hfield, e2]
    linarith
  · have hfield : ((istep b).Ihi : ℚ) =
        (b.Ihi : ℚ) + ((cdivZ (b.Shi * b.Ihi) (2000 * Dscale) : ℤ) : ℚ) -
          ((b.Ilo / 10 : ℤ) : ℚ) := by
      simp only [istep]
      push_cast
      ring
    rw [hfield, e2]
    linarith

lemma state0_example : stateAt exampleModel 0 = { S := 999, I := 1, R := 0 } := by
  rw [stateAt_zero]
  have h1 : exampleModel.S0 = 999 := by norm_num [exampleModel, mkModel]
  have h2 : exampleModel.I0 = 1 := rfl
  have h3 : exampleModel.R0 = 0 := rfl
  rw [h1, h2, h3]

lemma sound_zero : SoundAt 0 := by
  rw [SoundAt, state0_example]
  have hS : (ibox 0).Slo = 999 * Dscale := rfl
  have hS2 : (ibox 0).Shi = 999 * Dscale := rfl
  have hI : (ibox 0).Ilo = Dscale := rfl
  have hI2 : (ibox 0).Ihi = Dscale := rfl
  rw [hS, hS2, hI, hI2]
  refine ⟨?_, ?_, ?_, ?_⟩
  · show ((999 * Dscale : ℤ) : ℚ) ≤ (Dscale : ℚ) * 999
    push_cast
    linarith
  · show (Dscale : ℚ) * 999 ≤ ((999 * Dscale : ℤ) : ℚ)
    push_cast
    linarith
  · show ((Dscale : ℤ) : ℚ) ≤ (Dscale : ℚ) * 1
    linarith
  · show (Dscale : ℚ) * 1 ≤ ((Dscale : ℤ) : ℚ)
    linarith

lemma sound_succ (t : ℕ) (h : SoundAt t) (h0 : 0 ≤ (ibox t).Slo)
    (h1 : 0 ≤ (ibox t).Ilo) : SoundAt (t + 1) := by
  obtain ⟨hSl, hSh, hIl, hIh⟩ := h
  have hstep := istep_sound (ibox t) (stateAt exampleModel t).S
    (stateAt exampleModel t).I h0 h1 hSl hSh hIl hIh
  have hnext : stateAt exampleModel (t + 1) =
      { S := (stateAt exampleModel t).S -
          (stateAt exampleModel t).S * (stateAt exampleModel t).I / 2000
        I := (stateAt exampleModel t).I +
          (stateAt exampleModel t).S * (stateAt exampleModel t).I / 2000 -
          (stateAt exampleModel t).I / 10
        R := (stateAt exampleModel t).R + (stateAt exampleModel t).I / 10 } := by
    rw [stateAt_succ]
    have he := exampleStep (stateAt exampleModel t).S (stateAt exampleModel t).I
      (stateAt exampleModel t).R
    have heta : ({ S := (stateAt exampleModel t).S
                   I := (stateAt exampleModel t).I
                   R := (stateAt exampleModel t).R } : State) =
        stateAt exampleModel t := rfl
    rw [heta] at he
    exact he
  rw [SoundAt, hnext]
  have hib : ibox (t + 1) = istep (ibox t) := rfl
  rw [hib]
  exact hstep

lemma boxes_nonneg : ∀ t, t < 76 → 0 ≤ (ibox t).Slo ∧ 0 ≤ (ibox t).Ilo := by decide

lemma sound_upto : ∀ t, t ≤ 75 → SoundAt t := by
  intro t
  induction t with
  | zero => intro h; exact sound_zero
  | succ v ih =>
      intro h
      have hv := ih (by omega)
      exact sound_succ v hv (boxes_nonneg v (by omega)).1 (boxes_nonneg v (by omega)).2

lemma sep_24 : ∀ t, t < 76 → (t ≤ 20 ∨ 40 ≤ t) → (ibox t).Ihi < (ibox 24).Ilo := by
  decide

lemma window_lt_1000 : ∀ t, t < 76 → 21 ≤ t → t ≤ 39 →
    (ibox t).Ihi < 1000 * Dscale := by decide

/-- C8.  For the model with `beta = 1/2`, `gamma = 1/10`, `N = 1000`,
`I0 = 1` simulated discretely over 75 days, `get_peak_infection_day`
returns a day strictly between 20 and 40 (in fact day 24 is the first
maximum) and a peak infected count strictly below `N = 1000`.  The exact
rational trajectory is bracketed by the certified integer interval
enclosure `ibox`. -/
theorem peak_between_20_and_40 :
    ∃ d c, get_peak_infection_day (discrete_simulation exampleModel 75) =
        some (d, c) ∧ 20 < d ∧ d < 40 ∧ c < 1000 := by
  have hlen : (discrete_simulation exampleModel 75).length = 76 := by
    simp [discrete_simulation]
  have hne : discrete_simulation exampleModel 75 ≠ [] := by
    intro hcon
    rw [hcon] at hlen
    simp at hlen
  obtain ⟨k, hk, hpeak, hmax, hfirst⟩ :=
    argmax_infected_spec (discrete_simulation exampleModel 75) hne
  have hget : ∀ j, ∀ hj : j < (discrete_simulation exampleModel 75).length,
      (discrete_simulation exampleModel 75).get ⟨j, hj⟩ =
        { day := j
          Susceptible := (stateAt exampleModel j).S
          Infected := (stateAt exampleModel j).I
          Recovered := (stateAt exampleModel j).R
          Total := (stateAt exampleModel j).S + (stateAt exampleModel j).I +
            (stateAt exampleModel j).R } := by
    intro j hj
    simp only [discrete_simulation, List.get_eq_getElem, List.getElem_map,
      List.getElem_range]
  have hIbounds : ∀ j, j ≤ 75 →
      ((ibox j).Ilo : ℚ) ≤ Dscale * (stateAt exampleModel j).I ∧
      (Dscale : ℚ) * (stateAt exampleModel j).I ≤ ((ibox j).Ihi : ℚ) := by
    intro j hj
    obtain ⟨_, _, h3, h4⟩ := sound_upto j hj
    exact ⟨h3, h4⟩
  have h24len : 24 < (discrete_simulation exampleModel 75).length := by
    rw [hlen]
    omega
  have hdom : ∀ j, ∀ hj : j < (discrete_simulation exampleModel 75).length,
      (j ≤ 20 ∨ 40 ≤ j) →
      ((discrete_simulation exampleModel 75).get ⟨j, hj⟩).Infected <
        ((discrete_simulation exampleModel 75).get ⟨24, h24len⟩).Infected := by
    intro j hj hbad
    rw [hget j hj, hget 24 h24len]
    show (stateAt exampleModel j).I < (stateAt exampleModel 24).I
    have hj75 : j ≤ 75 := by rw [hlen] at hj; omega
    have hbj := hIbounds j hj75
    have hb24 := hIbounds 24 (by omega)
    have hint : (ibox j).Ihi < (ibox 24).Ilo := sep_24 j (by omega) hbad
    have hintQ : ((ibox j).Ihi : ℚ) < ((ibox 24).Ilo : ℚ) := by exact_mod_cast hint
    have hmul : (Dscale : ℚ) * (stateAt exampleModel j).I <
        (Dscale : ℚ) * (stateAt exampleModel 24).I :=
      lt_of_le_of_lt hbj.2 (lt_of_lt_of_le hintQ hb24.1)
    exact lt_of_mul_lt_mul_left hmul (le_of_lt DscaleQ_pos)
  have hkbad : ¬ (k ≤ 20 ∨ 40 ≤ k) := by
    intro hbad
    have h1 := hdom k hk hbad
    have h2 := hmax 24 h24len
    exact lt_irrefl _ (lt_of_le_of_lt h2 h1)
  have hk21 : 21 ≤ k := by omega
  have hk39 : k ≤ 39 := by omega
  refine ⟨((discrete_simulation exampleModel 75).get ⟨k, hk⟩).day,
    ((discrete_simulation exampleModel 75).get ⟨k, hk⟩).Infected, ?_, ?_, ?_, ?_⟩
  · rw [get_peak_infection_day, hpeak, Option.map_some']
  · rw [hget k hk]
    show 20 < k
    omega
  · rw [hget k hk]
    show k < 40
    omega
  · rw [hget k hk]
    show (stateAt exampleModel k).I < 1000
    have hbk := hIbounds k (by omega)
    have hwk : (ibox k).Ihi < 1000 * Dscale := window_lt_1000 k (by omega) hk21 hk39
    have hwkQ : ((ibox k).Ihi : ℚ) < ((1000 * Dscale : ℤ) : ℚ) := by exact_mod_cast hwk
    have h1000 : ((1000 * Dscale : ℤ) : ℚ) = (Dscale : ℚ) * 1000 := by
      push_cast
      ring
    have hmul : (Dscale : ℚ) * (stateAt exampleModel k).I < (Dscale : ℚ) * 1000 := by
      rw [h1000] at hwkQ
      exact lt_of_le_of_lt hbk.2 hwkQ
    exact lt_of_mul_lt_mul_left hmul (le_of_lt DscaleQ_pos)

end SIR
